import Mathlib

/-!
Verification of the mmark `xml2` renderer (`xml2/renderer.go`): a shallow
embedding of the renderer's data model and of the handlers relevant to the
stated properties, followed by theorems settling those properties.

Conventions of the embedding:

* The output sink is modelled as a `List String` of emitted chunks, one chunk
  per call to the low-level writer (`outs` / `EscapeHTML` / `io.WriteString`).
* `Renderer` carries exactly the mutable fields of the Go `Renderer` struct:
  `documentMatter`, `section` (named `sectionH`, `section` being a Lean
  keyword), `title`, `headingIDs`, plus the configured flags.
* Helpers that live in this repository but outside the provided source file
  (`sectionClose`, `ensureUniqueHeadingID`, the tree-walk driver, the title
  block emitter and the byte-level escaper) are modelled from the spec; each
  such definition says so in its doc comment.
-/

namespace Mmark

/-- Document matter regions (ast.DocumentMatters minus the zero value). -/
inductive Matter where
  | front
  | main
  | back
  deriving DecidableEq, Repr

/-- Renderer flags (the bits of the Go `Flags` bitmask used by the renderer). -/
structure Flags where
  fragment : Bool
  skipHTML : Bool
  skipImages : Bool
  deriving DecidableEq, Repr

/-- The fields of an `ast.Heading` consulted by the renderer. -/
structure HeadingInfo where
  level : Nat
  headingID : String
  literal : String
  isSpecial : Bool
  deriving DecidableEq, Repr

/-- Walk statuses returned to the tree-walk driver (`ast.WalkStatus`). -/
inductive WalkStatus where
  | goToNext
  | skipChildren
  | terminate
  deriving DecidableEq, Repr

/-- The node variants of the input tree that this embedding covers, plus
`other`, which stands for any variant the dispatcher does not recognize
(the `default` arm of the Go switch). -/
inductive Node where
  | document (cs : List Node)
  | title
  | text (lit : String)
  | heading (info : HeadingInfo) (cs : List Node)
  | docMatter (m : Matter)
  | paragraph (cs : List Node)
  | codeBlock (lit : String)
  | caption (cs : List Node)
  | captionFigure (cs : List Node)
  | table (cs : List Node)
  | link (dest : String) (cs : List Node)
  | image (dest : String) (mtitle : Option String) (cs : List Node)
  | other (tag : String) (cs : List Node)

/-- The ordered children of a node. -/
def Node.children : Node → List Node
  | .document cs => cs
  | .title => []
  | .text _ => []
  | .heading _ cs => cs
  | .docMatter _ => []
  | .paragraph cs => cs
  | .codeBlock _ => []
  | .caption cs => cs
  | .captionFigure cs => cs
  | .table cs => cs
  | .link _ cs => cs
  | .image _ _ cs => cs
  | .other _ cs => cs

/-- Container nodes receive an exiting visit from the walk driver; leaf nodes
are visited once (spec, Purpose and Scope: the driver "visits every node twice
(once entering, once exiting for container nodes, once total for leaf
nodes)"). -/
def Node.isContainer : Node → Bool
  | .title => false
  | .text _ => false
  | .docMatter _ => false
  | .codeBlock _ => false
  | _ => true

/-- Is this node an `ast.Caption`? -/
def Node.isCaption : Node → Bool
  | .caption _ => true
  | _ => false

/-- Is this node an `ast.Table`? -/
def Node.isTable : Node → Bool
  | .table _ => true
  | _ => false

/-- Is the node's variant among those the dispatcher's switch recognizes? -/
def Node.recognized : Node → Bool
  | .other _ _ => false
  | _ => true

mutual
/-- Structural equality test on nodes (used to model removal of a node from
its parent's child list, which Go does by pointer identity). -/
def nodeEq : Node → Node → Bool
  | .document as, .document bs => nodeEqL as bs
  | .title, .title => true
  | .text a, .text b => a == b
  | .heading i as, .heading j bs => i == j && nodeEqL as bs
  | .docMatter a, .docMatter b => a == b
  | .paragraph as, .paragraph bs => nodeEqL as bs
  | .codeBlock a, .codeBlock b => a == b
  | .caption as, .caption bs => nodeEqL as bs
  | .captionFigure as, .captionFigure bs => nodeEqL as bs
  | .table as, .table bs => nodeEqL as bs
  | .link a as, .link b bs => a == b && nodeEqL as bs
  | .image a t as, .image b u bs => a == b && t == u && nodeEqL as bs
  | .other a as, .other b bs => a == b && nodeEqL as bs
  | _, _ => false

/-- Pointwise structural equality of node lists. -/
def nodeEqL : List Node → List Node → Bool
  | [], [] => true
  | a :: as, b :: bs => nodeEq a b && nodeEqL as bs
  | _, _ => false
end

mutual
/-- Every node of the subtree has a recognized variant. -/
def allRecognized : Node → Bool
  | .other _ _ => false
  | .document cs => allRecognizedL cs
  | .title => true
  | .text _ => true
  | .heading _ cs => allRecognizedL cs
  | .docMatter _ => true
  | .paragraph cs => allRecognizedL cs
  | .codeBlock _ => true
  | .caption cs => allRecognizedL cs
  | .captionFigure cs => allRecognizedL cs
  | .table cs => allRecognizedL cs
  | .link _ cs => allRecognizedL cs
  | .image _ _ cs => allRecognizedL cs

/-- Every node of every subtree in the list has a recognized variant. -/
def allRecognizedL : List Node → Bool
  | [] => true
  | c :: cs => allRecognized c && allRecognizedL cs
end

/-- The renderer state: flags plus the four mutable fields of the Go struct.
`headingIDs` is an association list from identifier to counter. -/
structure Renderer where
  flags : Flags
  documentMatter : Option Matter
  sectionH : Option HeadingInfo
  title : Bool
  headingIDs : List (String × Nat)
  deriving DecidableEq, Repr

/-- Modelled from the spec (external escaping primitive `html.EscapeHTML`):
standard XML character escaping of ampersand, angle brackets and double
quote. -/
def escapeChar (c : Char) : String :=
  if c = '"' then ("&quot;")
  else if c = '&' then ("&amp;")
  else if c = '<' then ("&lt;")
  else if c = '>' then ("&gt;")
  else String.singleton c

/-- Escape a character sequence, character by character. -/
def escapeChars : List Char → String
  | [] => ""
  | c :: cs => escapeChar c ++ escapeChars cs

/-- Escape a whole string, character by character. -/
def escapeHTML (s : String) : String :=
  escapeChars s.data

/-- Modelled from the spec (external helper `xml.IsAbstract`): does a special
heading's literal denote the abstract? Case-insensitive comparison with
"abstract". -/
def isAbstract (s : String) : Bool :=
  s.toLower = "abstract"

/-- Decimal digit to character (used by the disambiguator suffix). -/
def digitChar : Nat → Char
  | 0 => '0'
  | 1 => '1'
  | 2 => '2'
  | 3 => '3'
  | 4 => '4'
  | 5 => '5'
  | 6 => '6'
  | 7 => '7'
  | 8 => '8'
  | 9 => '9'
  | _ => '*'

/-- Character back to decimal digit (proof device for injectivity). -/
def decodeDigit : Char → Nat
  | '1' => 1
  | '2' => 2
  | '3' => 3
  | '4' => 4
  | '5' => 5
  | '6' => 6
  | '7' => 7
  | '8' => 8
  | '9' => 9
  | _ => 0

/-- Big-endian decimal digits of a natural number. -/
def decDigits (n : Nat) : List Char :=
  if _h : n < 10 then [digitChar n]
  else decDigits (n / 10) ++ [digitChar (n % 10)]
  decreasing_by exact Nat.div_lt_self (by omega) (by omega)

/-- Decode a digit string back to the number it denotes. -/
def decodeDec (l : List Char) : Nat :=
  l.foldl (fun acc c => acc * 10 + decodeDigit c) 0

/-- Association-list lookup on the `headingIDs` map. -/
def lookupA : List (String × Nat) → String → Option Nat
  | [], _ => none
  | (k, v) :: m, s => if k = s then some v else lookupA m s

/-- Association-list update of an existing key on the `headingIDs` map. -/
def setA : List (String × Nat) → String → Nat → List (String × Nat)
  | [], _, _ => []
  | (k, v) :: m, s, n => if k = s then (k, n) :: m else (k, v) :: setA m s n

/-- The keys of the `headingIDs` map: every identifier returned so far. -/
def keysA (m : List (String × Nat)) : List String :=
  m.map Prod.fst

/-- A candidate identifier suffixed with the disambiguator derived from the
counter `k` (spec, Heading-ID Allocator: "a deterministic disambiguator
derived from the counter (e.g., a numeric suffix)"). -/
def suffixed (cand : String) (k : Nat) : String :=
  cand ++ "-" ++ String.mk (decDigits k)

/-- Starting from counter value `k`, find the first counter whose suffixed
form has not yet been returned (is not a key of the map); `fuel` bounds the
search. -/
def findFree (m : List (String × Nat)) (cand : String) : Nat → Nat → Nat
  | k, 0 => k
  | k, fuel + 1 => if lookupA m (suffixed cand k) = none then k else findFree m cand (k + 1) fuel

/-- Modelled from the spec: the heading-ID allocator `ensureUniqueHeadingID`
(defined in this repository outside the provided source). First occurrence of
a candidate returns it unchanged and records count 1; a subsequent occurrence
advances the counter past every suffixed form that has already been returned
and returns the candidate with the counter-derived suffix, recording the
returned value so it can never be returned again in this pass. -/
def allocate (m : List (String × Nat)) (cand : String) : String × List (String × Nat) :=
  match lookupA m cand with
  | none => (cand, (cand, 1) :: m)
  | some c =>
    let k := findFree m cand (c + 1) (m.length + 1)
    (suffixed cand k, (suffixed cand k, 1) :: setA m cand k)

/-- Feed a sequence of candidate identifiers through the allocator, returning
the sequence of returned identifiers. -/
def allocateRun (m : List (String × Nat)) : List String → List String
  | [] => []
  | c :: cs => (allocate m c).1 :: allocateRun (allocate m c).2 cs

/-- The allocator state after feeding a sequence of candidates. -/
def allocateState (m : List (String × Nat)) : List String → List (String × Nat)
  | [] => m
  | c :: cs => allocateState (allocate m c).2 cs

/-- The renderer-level wrapper: `r.ensureUniqueHeadingID(id)` reads and
writes only the `headingIDs` field. -/
def ensureUniqueHeadingID (r : Renderer) (cand : String) : String × Renderer :=
  let p := allocate r.headingIDs cand
  (p.1, { r with headingIDs := p.2 })

/-- The closing tag belonging to an open heading: special headings close
their dedicated element, ordinary headings close a section. -/
def closeTagFor (h : HeadingInfo) : String :=
  if h.isSpecial then (if isAbstract h.literal then ("</abstract>") else ("</note>")) else ("</section>")

/-- Modelled from the spec: `sectionClose` (defined in this repository
outside the provided source). Section Stack Manager: "emit one closing
section tag for the current open heading if one exists, regardless of the
new heading's level", then record the new heading (or none) as current. -/
def sectionClose (r : Renderer) (newH : Option HeadingInfo) : Renderer × List String :=
  let out : List String :=
    match r.sectionH with
    | none => []
    | some h => [closeTagFor h, "\n"]
  ({ r with sectionH := newH }, out)

/-- `headingEnter`: emit the opening tag for a heading. Abstract headings
open a bare abstract element; otherwise the tag, an anchor attribute built
through the allocator when the heading carries an identifier, and the
opening of the title attribute are emitted. -/
def headingEnter (r : Renderer) (h : HeadingInfo) : Renderer × List String :=
  if h.isSpecial && isAbstract h.literal then
    (r, ["\n", "<abstract>"])
  else if h.headingID ≠ "" then
    ((ensureUniqueHeadingID r h.headingID).2,
      ["\n", if h.isSpecial then ("<note") else ("<section"),
        (" " ++ ("anchor=\"" ++ (ensureUniqueHeadingID r h.headingID).1 ++ "\"")) ++ " title=\""])
  else
    (r, ["\n", if h.isSpecial then ("<note") else ("<section"), "" ++ " title=\""])

/-- `headingExit`: a newline. -/
def headingExit : List String := ["\n"]

/-- The heading handler: on exit a newline; on entry close the current open
section (recording this heading as the new current one), then emit the
opening tag. -/
def heading (r : Renderer) (h : HeadingInfo) (entering : Bool) : Renderer × List String :=
  if !entering then
    (r, headingExit)
  else
    let p := sectionClose r (some h)
    let q := headingEnter p.1 h
    (q.1, p.2 ++ q.2)

/-- The region transition tags emitted on entering each document-matter
region. -/
def matterChunks : Matter → List String
  | .front => ["\n", "<front>", "\n"]
  | .main => ["\n", "</front>", "\n", "\n", "<middle>", "\n"]
  | .back => ["\n", "</middle>", "\n", "\n", "<back>", "\n"]

/-- The document-matter handler `matter`: close any open section, emit the
region transition tags, record the new region. -/
def matter (r : Renderer) (m : Matter) : Renderer × List String :=
  let p := sectionClose r none
  ({ p.1 with documentMatter := some m }, p.2 ++ matterChunks m)

/-- The chunks of the non-fragment document preamble. -/
def xmlDecl : String := "<?xml version=\"1.0\" encoding=\"utf-8\"?>"

/-- The generator comment emitted in the preamble. -/
def generatorComment : String :=
  "<!-- name=\"GENERATOR\" content=\"github.com/mmarkdown/mmark markdown processor for Go\" -->"

/-- The DOCTYPE line of the preamble, referencing rfc2629.dtd. -/
def doctype : String := "<!DOCTYPE rfc SYSTEM \x27rfc2629.dtd\x27 []>"

/-- `writeDocumentHeader`: nothing in fragment mode, otherwise XML
declaration, generator comment and DOCTYPE, each followed by a newline. -/
def writeDocumentHeader (r : Renderer) : List String :=
  if r.flags.fragment then [] else [xmlDecl, "\n", generatorComment, "\n", doctype, "\n"]

/-- `RenderHeader`: emits the document preamble unless fragment mode is on. -/
def renderHeader (r : Renderer) : List String :=
  if r.flags.fragment then [] else writeDocumentHeader r

/-- The closing tag of the currently open matter region, if any. -/
def footerMatterChunks : Option Matter → List String
  | some .front => ["\n</front>\n"]
  | some .main => ["\n</middle>\n"]
  | some .back => ["\n</back>\n"]
  | none => []

/-- `RenderFooter`: close any open section, emit the closing tag of the
currently open matter region, and append the closing root tag when a title
block was emitted during the pass. -/
def renderFooter (r : Renderer) : Renderer × List String :=
  let p := sectionClose r none
  (p.1, p.2 ++ footerMatterChunks p.1.documentMatter
    ++ (if p.1.title then ["\n</rfc>"] else []))

/-- Modelled from the spec: `titleBlock` (defined in this repository outside
the provided source) emits the opening root element of the document; its
attribute details are out of scope here. -/
def titleBlock : List String := ["<rfc>"]

/-- The text handler: raw literal under a link; escaped literal closing the
title attribute under a heading (suppressed for the abstract heading) or a
caption; plain escaped literal otherwise. -/
def text (parent : Option Node) (lit : String) : List String :=
  match parent with
  | some (.link _ _) => [lit]
  | some (.heading info _) =>
      if info.isSpecial && isAbstract info.literal then [] else [escapeHTML lit, "\">"]
  | some (.caption _) => [escapeHTML lit, "\">"]
  | _ => [escapeHTML lit]

/-- The code-block handler (no language info or block attributes are
modelled, and no callout comments are configured): artwork, wrapped in its
own figure unless the parent is already a caption figure. -/
def codeBlock (inFigure : Bool) (lit : String) : List String :=
  ["\n"] ++ (if inFigure then ["<artwork>"] else ["<figure><artwork>"]) ++
    [escapeHTML lit] ++ (if inFigure then ["</artwork>"] else ["</artwork></figure>"]) ++ ["\n"]

/-- The link handler: opens an eref element carrying the escaped destination
and closes it with an iref closing tag, the same fragment on every visit. -/
def link (dest : String) : List String :=
  ["<eref", " target=\"", escapeHTML dest, "\"></iref>"]

/-- The image handler, entering visit. -/
def imageEnter (dest : String) : List String :=
  ["<img src=\"", escapeHTML dest, "\" alt=\""]

/-- The image handler, exiting visit. -/
def imageExit (mtitle : Option String) : List String :=
  (match mtitle with
   | some t => ["\" name=\"", escapeHTML t]
   | none => []) ++ ["\" />"]

/-- The optional per-node interception hook (`RenderNodeHook`): given node
and direction it returns a walk status and whether it handled the node. -/
def Hook := Option (Node → Bool → WalkStatus × Bool)

/-- The state threaded through a walk: renderer state, emitted chunks, the
visit trace of the dispatcher, and three stop markers — a fatal dispatch
error (Go panic), a terminate status from the hook, and fuel exhaustion of
this embedding's bounded recursion. -/
structure WalkSt where
  r : Renderer
  out : List String
  trace : List (Node × Bool)
  panicked : Bool
  halted : Bool
  fuelOut : Bool

/-- Append emitted chunks to the output sink. -/
def emitW (st : WalkSt) (o : List String) : WalkSt :=
  { st with out := st.out ++ o }

/-- The result of one dispatcher call: the returned walk status, the possibly
rewritten node (caption children excised), the siblings excised from the
parent's child list, and the updated walk state. -/
structure RNRes where
  status : WalkStatus
  self : Node
  removed : List Node
  st : WalkSt

mutual
/-- `RenderNode`, the dispatcher: records the visit, consults the hook, then
dispatches on the node variant. Unrecognized variants are fatal. The
caption-figure and table handlers render caption subtrees out-of-band into
title-attribute position and excise them from the tree. -/
def renderNode : Hook → Nat → Option Node → Node → Bool → WalkSt → RNRes
  | _, 0, _, n, _, st => ⟨.goToNext, n, [], { st with fuelOut := true }⟩
  | hook, fuel + 1, parent, n, entering, st0 =>
    let st := { st0 with trace := st0.trace ++ [(n, entering)] }
    let hookStatus : Option WalkStatus :=
      match hook with
      | some f => let p := f n entering; if p.2 then some p.1 else none
      | none => none
    match hookStatus with
    | some ws => ⟨ws, n, [], st⟩
    | none =>
      match n, entering with
      | .document _, _ => ⟨.goToNext, n, [], st⟩
      | .title, _ =>
          ⟨.goToNext, n, [], { emitW st titleBlock with r := { st.r with title := true } }⟩
      | .text lit, _ => ⟨.goToNext, n, [], emitW st (text parent lit)⟩
      | .heading info _, e =>
          let p := heading st.r info e
          ⟨.goToNext, n, [], { emitW st p.2 with r := p.1 }⟩
      | .docMatter m, e =>
          if e then
            let p := matter st.r m
            ⟨.goToNext, n, [], { emitW st p.2 with r := p.1 }⟩
          else ⟨.goToNext, n, [], st⟩
      | .paragraph _, e => ⟨.goToNext, n, [], emitW st (if e then ["<t>"] else ["</t>", "\n"])⟩
      | .codeBlock lit, _ =>
          let inFigure := match parent with | some (.captionFigure _) => true | _ => false
          ⟨.goToNext, n, [], emitW st (codeBlock inFigure lit)⟩
      | .caption _, _ => ⟨.goToNext, n, [], st⟩
      | .captionFigure cs, e =>
          if cs.any Node.isTable then ⟨.goToNext, n, [], st⟩
          else if e then
            let st1 := emitW st ["<figure", " title=\""]
            let st2 := walkCaptions hook fuel (.captionFigure cs) cs st1
            ⟨.goToNext, .captionFigure (cs.filter (fun c => !c.isCaption)), [], st2⟩
          else ⟨.goToNext, n, [], emitW st ["</figure>"]⟩
      | .table _, e =>
          if !e then ⟨.goToNext, n, [], emitW st ["</texttable>"]⟩
          else
            let st1 := emitW st ["<texttable", ""]
            match parent with
            | some (.captionFigure pcs) =>
                let st2 := emitW st1 [" title=\""]
                match pcs.find? Node.isCaption with
                | some cap =>
                    ⟨.goToNext, n, [cap],
                      (walkNode hook fuel (some (.captionFigure pcs)) cap st2).1⟩
                | none => ⟨.goToNext, n, [], st2⟩
            | _ => ⟨.goToNext, n, [], emitW st1 [">"]⟩
      | .link dest _, _ => ⟨.goToNext, n, [], emitW st (link dest)⟩
      | .image dest mt _, e =>
          if st.r.flags.skipImages then ⟨.skipChildren, n, [], st⟩
          else ⟨.goToNext, n, [], emitW st (if e then imageEnter dest else imageExit mt)⟩
      | .other _ _, _ => ⟨.goToNext, n, [], { st with panicked := true }⟩

/-- Walk the caption children of a figure in order, rendering each through
the dispatcher (the figure handler's out-of-band caption rendering). -/
def walkCaptions : Hook → Nat → Node → List Node → WalkSt → WalkSt
  | _, _, _, [], st => st
  | _, 0, _, _ :: _, st => { st with fuelOut := true }
  | hook, fuel + 1, parent, c :: cs, st =>
    let st1 := if c.isCaption then (walkNode hook fuel (some parent) c st).1 else st
    walkCaptions hook fuel parent cs st1

/-- Modelled from the spec: the external pre-order walk driver. Visit the
node entering; unless children are skipped, walk the (possibly rewritten)
children; container nodes receive an exiting visit. Returns the state and
the siblings the node's handler excised from its parent's child list. -/
def walkNode : Hook → Nat → Option Node → Node → WalkSt → WalkSt × List Node
  | _, 0, _, _, st => ({ st with fuelOut := true }, [])
  | hook, fuel + 1, parent, n, st =>
    if st.panicked || st.halted || st.fuelOut then (st, []) else
    let res := renderNode hook fuel parent n true st
    if res.st.panicked || res.st.fuelOut then (res.st, res.removed) else
    match res.status with
    | .terminate => ({ res.st with halted := true }, res.removed)
    | .skipChildren =>
        if res.self.isContainer then
          let ex := renderNode hook fuel parent res.self false res.st
          if ex.status = .terminate then ({ ex.st with halted := true }, res.removed)
          else (ex.st, res.removed)
        else (res.st, res.removed)
    | .goToNext =>
        let st2 := walkList hook fuel (some res.self) res.self.children res.st
        if st2.panicked || st2.halted || st2.fuelOut then (st2, res.removed) else
        if res.self.isContainer then
          let ex := renderNode hook fuel parent res.self false st2
          if ex.status = .terminate then ({ ex.st with halted := true }, res.removed)
          else (ex.st, res.removed)
        else (st2, res.removed)

/-- Modelled from the spec: walk a child list in order; after each child the
siblings its handler excised are dropped from the remaining list, so an
excised caption is never visited again. -/
def walkList : Hook → Nat → Option Node → List Node → WalkSt → WalkSt
  | _, 0, _, _, st => { st with fuelOut := true }
  | _, _ + 1, _, [], st => st
  | hook, fuel + 1, parent, c :: cs, st =>
    if st.panicked || st.halted || st.fuelOut then st else
    let p := walkNode hook fuel parent c st
    walkList hook fuel parent (cs.filter (fun x => !(p.2.any (fun y => nodeEq y x)))) p.1
end

/-- A fresh renderer with the given flags. -/
def initRenderer (fl : Flags) : Renderer :=
  { flags := fl, documentMatter := none, sectionH := none, title := false, headingIDs := [] }

/-- A fresh walk state over the given renderer. -/
def initSt (r : Renderer) : WalkSt :=
  { r := r, out := [], trace := [], panicked := false, halted := false, fuelOut := false }

/-- One entering heading visit, as seen by the section machinery. -/
def headingStep (r : Renderer) (h : HeadingInfo) : Renderer × List String :=
  heading r h true

/-- Renderer state after visiting a sequence of headings. -/
def headingStateAfter (r : Renderer) (hs : List HeadingInfo) : Renderer :=
  hs.foldl (fun s h => (headingStep s h).1) r

/-- Is an ordinary (non-special) section element currently open? -/
def sectionOpenRegular (r : Renderer) : Bool :=
  match r.sectionH with
  | some h => !h.isSpecial
  | none => false

/-- Total number of section-like closing tags in an output fragment. -/
def closesCount (out : List String) : Nat :=
  out.count ("</section>") + out.count ("</abstract>") + out.count ("</note>")

/-- The structural events of a render pass as far as matter tags are
concerned: the document-matter transitions and the heading visits. -/
inductive Event where
  | matterE (m : Matter)
  | headingE (h : HeadingInfo)

/-- Render one structural event (a heading event covers the entering and the
exiting visit). -/
def eventStep (r : Renderer) : Event → Renderer × List String
  | .matterE m => matter r m
  | .headingE h =>
      let p := heading r h true
      (p.1, p.2 ++ headingExit)

/-- Render a sequence of structural events, concatenating their output. -/
def runEvents (r : Renderer) : List Event → Renderer × List String
  | [] => (r, [])
  | e :: es =>
      let p := eventStep r e
      let q := runEvents p.1 es
      (q.1, p.2 ++ q.2)

/-- The matter transition an event performs, if any. -/
def eventMatter : Event → Option Matter
  | .matterE m => some m
  | .headingE _ => none

/-- Strings that differ in their final character differ. -/
theorem ne_of_last (s t : String) (h : s.data.getLast? ≠ t.data.getLast?) : s ≠ t :=
  fun e => h (by rw [e])

/-- The last character of a chunk that opens a title attribute is the double
quote. -/
theorem title_chunk_last (x : String) :
    (x ++ " title=\"").data.getLast? = some '"' := by
  rw [String.data_append]
  rw [List.getLast?_append_of_ne_nil _ (by simp)]
  rfl

/-- A chunk that opens a title attribute is never a tag ending in a closing
angle bracket. -/
theorem title_chunk_ne (x t : String) (ht : t.data.getLast? = some '>') :
    x ++ " title=\"" ≠ t := by
  apply ne_of_last
  rw [title_chunk_last, ht]
  decide

/-- No chunk emitted by `headingEnter` is a tag ending in a closing angle
bracket, other than the bare abstract opening tag. -/
theorem headingEnter_not_mem (r : Renderer) (h : HeadingInfo) (c : String)
    (hc : c.data.getLast? = some '>') (hab : c ≠ "<abstract>") :
    c ∉ (headingEnter r h).2 := by
  have hnl : c ≠ "\n" := by intro e; rw [e] at hc; exact absurd hc (by decide)
  have hnote : c ≠ "<note" := by intro e; rw [e] at hc; exact absurd hc (by decide)
  have hsec : c ≠ "<section" := by intro e; rw [e] at hc; exact absurd hc (by decide)
  have htag : c ≠ (if h.isSpecial then ("<note") else ("<section")) := by
    cases h.isSpecial <;> simpa
  unfold headingEnter
  by_cases h1 : (h.isSpecial && isAbstract h.literal) = true
  · rw [if_pos h1]
    simp only [List.mem_cons, List.not_mem_nil, or_false]
    intro hm
    rcases hm with hm | hm
    · exact hnl hm
    · exact hab hm
  · rw [if_neg h1]
    by_cases h2 : h.headingID ≠ ""
    · rw [if_pos h2]
      simp only [List.mem_cons, List.not_mem_nil, or_false]
      intro hm
      rcases hm with hm | hm | hm
      · exact hnl hm
      · exact htag hm
      · exact (title_chunk_ne _ c hc) hm.symm
    · rw [if_neg h2]
      simp only [List.mem_cons, List.not_mem_nil, or_false]
      intro hm
      rcases hm with hm | hm | hm
      · exact hnl hm
      · exact htag hm
      · exact (title_chunk_ne _ c hc) hm.symm

/-- Count version of `headingEnter_not_mem`. -/
theorem headingEnter_count (r : Renderer) (h : HeadingInfo) (c : String)
    (hc : c.data.getLast? = some '>') (hab : c ≠ "<abstract>") :
    ((headingEnter r h).2).count c = 0 :=
  List.count_eq_zero.mpr (headingEnter_not_mem r h c hc hab)

/-- `sectionClose` emits exactly one section closing tag when an ordinary
section is open, and none otherwise. -/
theorem sectionClose_count_section (r : Renderer) (nh : Option HeadingInfo) :
    ((sectionClose r nh).2).count ("</section>") = if sectionOpenRegular r then 1 else 0 := by
  unfold sectionClose sectionOpenRegular closeTagFor
  cases hse : r.sectionH with
  | none => simp
  | some h0 =>
    cases hsp : h0.isSpecial with
    | false => simp [hsp, List.count_cons]
    | true =>
      by_cases hab : isAbstract h0.literal = true
      · simp [hsp, hab, List.count_cons]
      · simp [hsp, hab, List.count_cons]

/-- `sectionClose` emits exactly one closing tag (of whatever section-like
kind) when a section is open, and none otherwise. -/
theorem sectionClose_closes (r : Renderer) (nh : Option HeadingInfo) :
    closesCount ((sectionClose r nh).2) = if r.sectionH.isSome then 1 else 0 := by
  unfold sectionClose closesCount closeTagFor
  cases hse : r.sectionH with
  | none => simp
  | some h0 =>
    cases hsp : h0.isSpecial with
    | false => simp [hsp, List.count_cons]
    | true =>
      by_cases hab : isAbstract h0.literal = true
      · simp [hsp, hab, List.count_cons]
      · simp [hsp, hab, List.count_cons]

/-- Per-heading close counts: entering a heading emits exactly one
section-close when an ordinary section was open (zero otherwise), and
exactly one closing tag of any section-like kind when any section-like
element was open — never more than one, whatever the levels involved. -/
theorem heading_counts (r : Renderer) (h : HeadingInfo) :
    ((heading r h true).2).count ("</section>") = (if sectionOpenRegular r then 1 else 0)
      ∧ closesCount ((heading r h true).2) = (if r.sectionH.isSome then 1 else 0) := by
  have habs : ("</abstract>" : String) ≠ "<abstract>" := by decide
  have hnote : ("</note>" : String) ≠ "<abstract>" := by decide
  have hsec : ("</section>" : String) ≠ "<abstract>" := by decide
  constructor
  · show ((heading r h true).2).count ("</section>") = _
    unfold heading
    simp only [Bool.not_true, Bool.false_eq_true, if_false, if_true, List.count_append]
    rw [sectionClose_count_section r (some h),
      headingEnter_count _ h ("</section>") (by decide) hsec]
    omega
  · show closesCount ((heading r h true).2) = _
    unfold heading
    simp only [Bool.not_true, Bool.false_eq_true, if_false, if_true]
    unfold closesCount
    simp only [List.count_append]
    have e1 := headingEnter_count (sectionClose r (some h)).1 h ("</section>") (by decide) hsec
    have e2 := headingEnter_count (sectionClose r (some h)).1 h ("</abstract>") (by decide) habs
    have e3 := headingEnter_count (sectionClose r (some h)).1 h ("</note>") (by decide) hnote
    have hsc := sectionClose_closes r (some h)
    unfold closesCount at hsc
    omega

/-- C1: for every sequence of headings visited in one render pass, the
number of section closing tags emitted at the k-th heading's entering visit
(immediately before its opening tag) is exactly one if a section was open at
that point and zero otherwise, regardless of the relative levels of the old
and new heading — never more than one close per heading transition. The
first conjunct counts literal section closes (one exactly when an ordinary
section element is open), the second counts closing tags of any
section-like kind (one exactly when anything is open). -/
theorem claim_c1_heading_closes (r : Renderer) (hs : List HeadingInfo) (k : Nat)
    (hk : k < hs.length) :
    ((headingStep (headingStateAfter r (hs.take k)) (hs.get ⟨k, hk⟩)).2).count ("</section>")
        = (if sectionOpenRegular (headingStateAfter r (hs.take k)) then 1 else 0)
      ∧ closesCount ((headingStep (headingStateAfter r (hs.take k)) (hs.get ⟨k, hk⟩)).2)
        = (if (headingStateAfter r (hs.take k)).sectionH.isSome then 1 else 0) := by
  unfold headingStep
  exact heading_counts _ _

/-- Flags used by concrete witnesses: the common configuration of this
renderer (images skipped, full document). -/
def flagsW : Flags := { fragment := false, skipHTML := false, skipImages := true }

/-- A concrete ordinary heading used by witnesses. -/
def h1W : HeadingInfo :=
  { level := 1, headingID := "intro", literal := "Introduction", isSpecial := false }

/-- Witness for C1 at a concrete two-heading sequence: the second heading's
transition emits exactly one section close. -/
theorem claim_c1_heading_closes_witness :
    1 < [h1W, h1W].length ∧
      (((headingStep (headingStateAfter (initRenderer flagsW) ([h1W, h1W].take 1))
            ([h1W, h1W].get ⟨1, by decide⟩)).2).count ("</section>")
          = (if sectionOpenRegular (headingStateAfter (initRenderer flagsW) ([h1W, h1W].take 1))
              then 1 else 0)
        ∧ closesCount ((headingStep (headingStateAfter (initRenderer flagsW) ([h1W, h1W].take 1))
            ([h1W, h1W].get ⟨1, by decide⟩)).2)
          = (if (headingStateAfter (initRenderer flagsW) ([h1W, h1W].take 1)).sectionH.isSome
              then 1 else 0)) :=
  ⟨by decide, claim_c1_heading_closes (initRenderer flagsW) [h1W, h1W] 1 (by decide)⟩

/-- `sectionClose` never emits any chunk other than a section-like closing
tag and a newline. -/
theorem sectionClose_count_zero (r : Renderer) (nh : Option HeadingInfo) (c : String)
    (h2 : c ≠ "</section>") (h3 : c ≠ "</abstract>") (h4 : c ≠ "</note>") (h5 : c ≠ "\n") :
    ((sectionClose r nh).2).count c = 0 := by
  rw [List.count_eq_zero]
  unfold sectionClose closeTagFor
  cases hse : r.sectionH with
  | none => simp
  | some h0 =>
    simp only [List.mem_cons, List.not_mem_nil, or_false]
    intro hm
    rcases hm with hm | hm
    · cases hsp : h0.isSpecial with
      | false => rw [hsp] at hm; simp at hm; exact h2 hm
      | true =>
        rw [hsp] at hm
        by_cases hab : isAbstract h0.literal = true
        · rw [if_pos rfl, if_pos hab] at hm; exact h3 hm
        · rw [if_pos rfl, if_neg hab] at hm; exact h4 hm
    · exact h5 hm

/-- A heading event emits no chunk that is a matter tag. -/
theorem eventStep_heading_count (r : Renderer) (h : HeadingInfo) (c : String)
    (hc : c.data.getLast? = some '>') (h1 : c ≠ "<abstract>") (h2 : c ≠ "</section>")
    (h3 : c ≠ "</abstract>") (h4 : c ≠ "</note>") :
    ((eventStep r (.headingE h)).2).count c = 0 := by
  have h5 : c ≠ "\n" := by intro e; rw [e] at hc; exact absurd hc (by decide)
  unfold eventStep heading headingExit
  simp only [Bool.not_true, Bool.false_eq_true, if_false, if_true, List.count_append]
  rw [sectionClose_count_zero _ _ c h2 h3 h4 h5,
    headingEnter_count _ h c hc h1]
  simp [List.count_cons, h5]

/-- Matter-tag counting over a structural event sequence: a tag that each
matter transition emits exactly when the transition is `mt` occurs in the
rendered output exactly as often as `mt` occurs among the events. -/
theorem runEvents_count_param (c : String) (mt : Matter)
    (hc : c.data.getLast? = some '>') (h1 : c ≠ "<abstract>") (h2 : c ≠ "</section>")
    (h3 : c ≠ "</abstract>") (h4 : c ≠ "</note>")
    (hm : ∀ m : Matter, (matterChunks m).count c = if m = mt then 1 else 0) :
    ∀ (evs : List Event) (r : Renderer),
      ((runEvents r evs).2).count c = (evs.filterMap eventMatter).count mt := by
  have h5 : c ≠ "\n" := by intro e; rw [e] at hc; exact absurd hc (by decide)
  intro evs
  induction evs with
  | nil => intro r; simp [runEvents]
  | cons e es ih =>
    intro r
    cases e with
    | headingE h =>
      unfold runEvents
      simp only [List.count_append]
      rw [eventStep_heading_count r h c hc h1 h2 h3 h4, ih]
      simp [eventMatter, List.filterMap_cons]
    | matterE m =>
      unfold runEvents
      simp only [List.count_append]
      rw [ih]
      unfold eventStep matter
      simp only [List.count_append]
      rw [sectionClose_count_zero _ _ c h2 h3 h4 h5, hm m]
      simp [eventMatter, List.filterMap_cons, List.count_cons]
      by_cases hmm : m = mt
      · simp [hmm]; omega
      · simp [hmm, Ne.symm hmm]

/-- A tag that no matter transition and no heading emits never occurs in the
rendered output of a structural event sequence. -/
theorem runEvents_count_zero (c : String)
    (hc : c.data.getLast? = some '>') (h1 : c ≠ "<abstract>") (h2 : c ≠ "</section>")
    (h3 : c ≠ "</abstract>") (h4 : c ≠ "</note>")
    (hm : ∀ m : Matter, (matterChunks m).count c = 0) :
    ∀ (evs : List Event) (r : Renderer), ((runEvents r evs).2).count c = 0 := by
  have h5 : c ≠ "\n" := by intro e; rw [e] at hc; exact absurd hc (by decide)
  intro evs
  induction evs with
  | nil => intro r; simp [runEvents]
  | cons e es ih =>
    intro r
    cases e with
    | headingE h =>
      unfold runEvents
      simp only [List.count_append]
      rw [eventStep_heading_count r h c hc h1 h2 h3 h4, ih]
    | matterE m =>
      unfold runEvents
      simp only [List.count_append]
      rw [ih]
      unfold eventStep matter
      simp only [List.count_append]
      rw [sectionClose_count_zero _ _ c h2 h3 h4 h5, hm m]

/-- C2: in every render pass whose structural events enter front, then main,
then back (each once), the output carries exactly one front open and close,
exactly one middle open and close, exactly one back open and no back close
(the back region is closed by the footer, not by a transition); no matter
tag appears twice. -/
theorem claim_c2_matter_tags (r : Renderer) (evs : List Event)
    (hseq : evs.filterMap eventMatter = [Matter.front, Matter.main, Matter.back]) :
    ((runEvents r evs).2).count ("<front>") = 1
      ∧ ((runEvents r evs).2).count ("</front>") = 1
      ∧ ((runEvents r evs).2).count ("<middle>") = 1
      ∧ ((runEvents r evs).2).count ("</middle>") = 1
      ∧ ((runEvents r evs).2).count ("<back>") = 1
      ∧ ((runEvents r evs).2).count ("</back>") = 0 := by
  refine ⟨?_, ?_, ?_, ?_, ?_, ?_⟩
  · rw [runEvents_count_param ("<front>") Matter.front (by decide) (by decide) (by decide)
      (by decide) (by decide) (by intro m; cases m <;> decide) evs r, hseq]
    decide
  · rw [runEvents_count_param ("</front>") Matter.main (by decide) (by decide) (by decide)
      (by decide) (by decide) (by intro m; cases m <;> decide) evs r, hseq]
    decide
  · rw [runEvents_count_param ("<middle>") Matter.main (by decide) (by decide) (by decide)
      (by decide) (by decide) (by intro m; cases m <;> decide) evs r, hseq]
    decide
  · rw [runEvents_count_param ("</middle>") Matter.back (by decide) (by decide) (by decide)
      (by decide) (by decide) (by intro m; cases m <;> decide) evs r, hseq]
    decide
  · rw [runEvents_count_param ("<back>") Matter.back (by decide) (by decide) (by decide)
      (by decide) (by decide) (by intro m; cases m <;> decide) evs r, hseq]
    decide
  · exact runEvents_count_zero ("</back>") (by decide) (by decide) (by decide) (by decide)
      (by decide) (by intro m; cases m <;> decide) evs r

/-- A concrete front-main-back event sequence with interleaved headings. -/
def evsW : List Event :=
  [.matterE .front, .headingE h1W, .matterE .main, .headingE h1W, .matterE .back]

/-- Witness for C2 at a concrete event sequence. -/
theorem claim_c2_matter_tags_witness :
    evsW.filterMap eventMatter = [Matter.front, Matter.main, Matter.back]
      ∧ (((runEvents (initRenderer flagsW) evsW).2).count ("<front>") = 1
        ∧ ((runEvents (initRenderer flagsW) evsW).2).count ("</front>") = 1
        ∧ ((runEvents (initRenderer flagsW) evsW).2).count ("<middle>") = 1
        ∧ ((runEvents (initRenderer flagsW) evsW).2).count ("</middle>") = 1
        ∧ ((runEvents (initRenderer flagsW) evsW).2).count ("<back>") = 1
        ∧ ((runEvents (initRenderer flagsW) evsW).2).count ("</back>") = 0) :=
  ⟨by decide, claim_c2_matter_tags (initRenderer flagsW) evsW (by decide)⟩

/-- Decoding inverts the digit characters below ten. -/
theorem decodeDigit_digitChar (d : Nat) (h : d < 10) : decodeDigit (digitChar d) = d := by
  interval_cases d <;> rfl

/-- Decoding distributes over appending a final digit. -/
theorem decodeDec_append_digit (l : List Char) (c : Char) :
    decodeDec (l ++ [c]) = decodeDec l * 10 + decodeDigit c := by
  unfold decodeDec
  rw [List.foldl_append]
  rfl

/-- Decoding inverts the decimal rendering. -/
theorem decodeDec_decDigits (n : Nat) : decodeDec (decDigits n) = n := by
  induction n using Nat.strong_induction_on with
  | _ n ih =>
    rw [decDigits]
    by_cases h : n < 10
    · rw [dif_pos h]
      show decodeDec [digitChar n] = n
      unfold decodeDec
      simp [decodeDigit_digitChar n h]
    · rw [dif_neg h]
      rw [decodeDec_append_digit]
      rw [ih (n / 10) (Nat.div_lt_self (by omega) (by omega))]
      rw [decodeDigit_digitChar (n % 10) (Nat.mod_lt _ (by omega))]
      omega

/-- The decimal rendering is injective. -/
theorem decDigits_inj (a b : Nat) (h : decDigits a = decDigits b) : a = b := by
  have ha := decodeDec_decDigits a
  rw [h, decodeDec_decDigits b] at ha
  exact ha.symm

/-- The suffixed form determines the counter. -/
theorem suffixed_inj (cand : String) (k1 k2 : Nat) (h : suffixed cand k1 = suffixed cand k2) :
    k1 = k2 := by
  unfold suffixed at h
  have hd : (cand ++ "-" ++ String.mk (decDigits k1)).data
      = (cand ++ "-" ++ String.mk (decDigits k2)).data := by rw [h]
  rw [String.data_append, String.data_append] at hd
  have hdd : (String.mk (decDigits k1)).data = (String.mk (decDigits k2)).data :=
    List.append_cancel_left hd
  exact decDigits_inj _ _ hdd

/-- Lookup misses exactly the strings outside the key set. -/
theorem lookupA_eq_none (m : List (String × Nat)) (s : String) :
    lookupA m s = none ↔ s ∉ keysA m := by
  induction m with
  | nil => simp [lookupA, keysA]
  | cons p m ih =>
    rcases p with ⟨k, v⟩
    unfold lookupA
    by_cases hp : k = s
    · simp [hp, keysA]
    · simp [hp, keysA, List.mem_cons] at ih ⊢
      constructor
      · intro hl
        exact ⟨fun e => hp e.symm, ih.mp hl⟩
      · intro hr
        exact ih.mpr hr.2

/-- Updating a key's counter does not change the key set. -/
theorem keysA_setA (m : List (String × Nat)) (s : String) (n : Nat) :
    keysA (setA m s n) = keysA m := by
  induction m with
  | nil => rfl
  | cons p m ih =>
    rcases p with ⟨k, v⟩
    unfold setA
    by_cases hk : k = s
    · simp [hk, keysA]
    · simp only [hk, if_false, keysA, List.map_cons]
      rw [show List.map Prod.fst (setA m s n) = List.map Prod.fst m from ih]

/-- The counter search never goes below its starting point. -/
theorem findFree_ge (m : List (String × Nat)) (cand : String) :
    ∀ (fuel k : Nat), k ≤ findFree m cand k fuel := by
  intro fuel
  induction fuel with
  | zero => intro k; simp [findFree]
  | succ fuel ih =>
    intro k
    unfold findFree
    by_cases hf : lookupA m (suffixed cand k) = none
    · simp [hf]
    · simp only [hf, if_false]
      exact le_trans (by omega) (ih (k + 1))

/-- If a free counter exists within the searched range, the counter search
returns a free counter. -/
theorem findFree_free (m : List (String × Nat)) (cand : String) :
    ∀ (fuel k : Nat), (∃ i, i < fuel ∧ lookupA m (suffixed cand (k + i)) = none) →
      lookupA m (suffixed cand (findFree m cand k fuel)) = none := by
  intro fuel
  induction fuel with
  | zero =>
    intro k hex
    obtain ⟨i, hi, _⟩ := hex
    omega
  | succ fuel ih =>
    intro k hex
    obtain ⟨i, hi, hfree⟩ := hex
    unfold findFree
    by_cases hf : lookupA m (suffixed cand k) = none
    · rw [if_pos hf]; exact hf
    · rw [if_neg hf]
      apply ih (k + 1)
      cases i with
      | zero => rw [Nat.add_zero] at hfree; exact absurd hfree hf
      | succ i =>
        refine ⟨i, by omega, ?_⟩
        rw [show k + 1 + i = k + (i + 1) by omega]
        exact hfree

/-- Pigeonhole: among `m.length + 1` consecutive suffixed forms at least one
is not a key of `m`. -/
theorem exists_free (m : List (String × Nat)) (cand : String) (k : Nat) :
    ∃ i, i < m.length + 1 ∧ lookupA m (suffixed cand (k + i)) = none := by
  by_contra hall
  push_neg at hall
  have hsub : ((List.range (m.length + 1)).map (fun i => suffixed cand (k + i))) ⊆ keysA m := by
    intro x hx
    simp only [List.mem_map, List.mem_range] at hx
    obtain ⟨i, hi, rfl⟩ := hx
    have hne := hall i hi
    by_contra hxk
    exact hne ((lookupA_eq_none m _).mpr hxk)
  have hnd : ((List.range (m.length + 1)).map (fun i => suffixed cand (k + i))).Nodup := by
    refine List.Nodup.map_on ?_ (List.nodup_range _)
    intro a _ b _ hab
    have := suffixed_inj cand (k + a) (k + b) hab
    omega
  have hle := (List.subperm_of_subset hnd hsub).length_le
  simp only [List.length_map, List.length_range, keysA, List.length_map] at hle
  omega

/-- The allocator never returns a value it has returned before (a key of the
map). -/
theorem allocate_fresh (m : List (String × Nat)) (cand : String) :
    (allocate m cand).1 ∉ keysA m := by
  unfold allocate
  cases hl : lookupA m cand with
  | none =>
    simp only []
    exact (lookupA_eq_none m cand).mp hl
  | some c =>
    simp only []
    have hex := exists_free m cand (c + 1)
    have hfree := findFree_free m cand (m.length + 1) (c + 1) hex
    exact (lookupA_eq_none m _).mp hfree

/-- The value the allocator returns is recorded in the resulting map. -/
theorem allocate_mem (m : List (String × Nat)) (cand : String) :
    (allocate m cand).1 ∈ keysA (allocate m cand).2 := by
  unfold allocate
  cases hl : lookupA m cand with
  | none => simp [keysA]
  | some c => simp [keysA]

/-- Allocation only grows the key set. -/
theorem keysA_allocate_sub (m : List (String × Nat)) (cand : String) :
    keysA m ⊆ keysA (allocate m cand).2 := by
  unfold allocate
  cases hl : lookupA m cand with
  | none =>
    simp only [keysA, List.map_cons]
    exact fun x hx => List.mem_cons_of_mem _ hx
  | some c =>
    simp only []
    intro x hx
    have : keysA ((suffixed cand (findFree m cand (c + 1) (m.length + 1)), 1)
        :: setA m cand (findFree m cand (c + 1) (m.length + 1)))
        = suffixed cand (findFree m cand (c + 1) (m.length + 1)) :: keysA m := by
      simp [keysA, List.map_cons, keysA_setA m cand _]
      rw [show (setA m cand (findFree m cand (c + 1) (m.length + 1))).map Prod.fst
        = keysA (setA m cand (findFree m cand (c + 1) (m.length + 1))) from rfl]
      rw [keysA_setA]
      rfl
    rw [this]
    exact List.mem_cons_of_mem _ hx

/-- Every value produced by a run is fresh with respect to the starting
map. -/
theorem allocateRun_fresh (cs : List String) :
    ∀ (m : List (String × Nat)) (x : String), x ∈ allocateRun m cs → x ∉ keysA m := by
  induction cs with
  | nil => intro m x hx; simp [allocateRun] at hx
  | cons c cs ih =>
    intro m x hx
    unfold allocateRun at hx
    rcases List.mem_cons.mp hx with hx | hx
    · rw [hx]; exact allocate_fresh m c
    · intro hxm
      exact ih (allocate m c).2 x hx (keysA_allocate_sub m c hxm)

/-- The values produced by a run are pairwise distinct. -/
theorem allocateRun_nodup (cs : List String) :
    ∀ (m : List (String × Nat)), (allocateRun m cs).Nodup := by
  induction cs with
  | nil => intro m; simp [allocateRun]
  | cons c cs ih =>
    intro m
    unfold allocateRun
    refine List.Nodup.cons ?_ (ih (allocate m c).2)
    intro hmem
    exact allocateRun_fresh cs (allocate m c).2 (allocate m c).1 hmem (allocate_mem m c)

/-- A run has one output per input. -/
theorem allocateRun_length (cs : List String) :
    ∀ (m : List (String × Nat)), (allocateRun m cs).length = cs.length := by
  induction cs with
  | nil => intro m; rfl
  | cons c cs ih => intro m; simp [allocateRun, ih]

/-- The k-th output of a run is the allocator's answer for the k-th
candidate in the state reached after the first k candidates. -/
theorem allocateRun_get? (cs : List String) :
    ∀ (m : List (String × Nat)) (k : Nat) (c : String), cs.get? k = some c →
      (allocateRun m cs).get? k = some (allocate (allocateState m (cs.take k)) c).1 := by
  induction cs with
  | nil => intro m k c h; simp at h
  | cons c0 cs ih =>
    intro m k c h
    cases k with
    | zero =>
      simp only [List.get?] at h
      injection h with h
      subst h
      rfl
    | succ k =>
      simp only [List.get?] at h
      unfold allocateRun
      simp only [List.get?, List.take, allocateState]
      exact ih (allocate m c0).2 k c h

/-- C3: identifiers returned by the heading-ID allocator within one pass are
pairwise distinct; the k-th output is a deterministic function of the first
k+1 candidates alone; a candidate with no map entry is returned unchanged; a
candidate already recorded with counter c is returned with a counter-derived
suffix for some counter past c; and the renderer-level wrapper touches
nothing but the `headingIDs` field, so the output sequence is independent of
all other renderer state. -/
theorem claim_c3_allocator (cs : List String) :
    (allocateRun [] cs).Nodup
      ∧ (∀ (k : Nat) (c : String), cs.get? k = some c →
          (allocateRun [] cs).get? k = some (allocate (allocateState [] (cs.take k)) c).1)
      ∧ (∀ (m : List (String × Nat)) (cand : String), lookupA m cand = none →
          (allocate m cand).1 = cand)
      ∧ (∀ (m : List (String × Nat)) (cand : String) (c : Nat), lookupA m cand = some c →
          ∃ j, c + 1 ≤ j ∧ (allocate m cand).1 = suffixed cand j)
      ∧ (∀ (r : Renderer) (cand : String),
          ensureUniqueHeadingID r cand
            = ((allocate r.headingIDs cand).1,
                { r with headingIDs := (allocate r.headingIDs cand).2 })) := by
  refine ⟨allocateRun_nodup cs [], allocateRun_get? cs [], ?_, ?_, ?_⟩
  · intro m cand h
    unfold allocate
    rw [h]
  · intro m cand c h
    refine ⟨findFree m cand (c + 1) (m.length + 1), findFree_ge m cand _ _, ?_⟩
    unfold allocate
    rw [h]
  · intro r cand
    rfl

/-- Witness for C3: submitting intro three times yields pairwise distinct
identifiers, and the first is exactly the candidate. -/
theorem claim_c3_allocator_witness :
    (allocateRun [] (["intro", "intro", "intro"])).Nodup
      ∧ (["intro", "intro", "intro"] : List String).get? 0 = some ("intro")
      ∧ (allocateRun [] (["intro", "intro", "intro"])).get? 0
          = some (allocate (allocateState [] ((["intro", "intro", "intro"] : List String).take 0))
              ("intro")).1
      ∧ lookupA [] ("intro") = none
      ∧ (allocate [] ("intro")).1 = "intro" :=
  ⟨(claim_c3_allocator (["intro", "intro", "intro"])).1,
    by decide,
    (claim_c3_allocator (["intro", "intro", "intro"])).2.1 0 ("intro") (by decide),
    by decide,
    (claim_c3_allocator (["intro", "intro", "intro"])).2.2.1 [] ("intro") (by decide)⟩

/-- Counting the three region closing tags inside the footer's matter
component. -/
theorem footerMatter_count (o : Option Matter) :
    (footerMatterChunks o).count ("\n</front>\n") = (if o = some Matter.front then 1 else 0)
      ∧ (footerMatterChunks o).count ("\n</middle>\n") = (if o = some Matter.main then 1 else 0)
      ∧ (footerMatterChunks o).count ("\n</back>\n") = (if o = some Matter.back then 1 else 0) := by
  cases o with
  | none => decide
  | some m => cases m <;> decide

/-- The footer's matter component contains nothing but a region closing
tag. -/
theorem footerMatter_count_zero (o : Option Matter) (c : String)
    (h1 : c ≠ "\n</front>\n") (h2 : c ≠ "\n</middle>\n") (h3 : c ≠ "\n</back>\n") :
    (footerMatterChunks o).count c = 0 := by
  cases o with
  | none => rfl
  | some m =>
    rw [List.count_eq_zero]
    intro hm
    cases m <;> simp [footerMatterChunks] at hm
    · exact h1 hm
    · exact h2 hm
    · exact h3 hm

/-- The footer's title component contains nothing but the closing root
tag. -/
theorem titlePart_count_zero (b : Bool) (c : String) (h : c ≠ "\n</rfc>") :
    ((if b = true then ["\n</rfc>"] else []).count c) = 0 := by
  cases b
  · rfl
  · rw [List.count_eq_zero]
    intro hm
    simp at hm
    exact h hm

/-- Counting the closing root tag in the footer's title component. -/
theorem titlePart_count (b : Bool) :
    ((if b = true then ["\n</rfc>"] else []).count ("\n</rfc>")) = if b = true then 1 else 0 := by
  cases b <;> decide

/-- Close counting distributes over appended fragments. -/
theorem closesCount_append (a b : List String) :
    closesCount (a ++ b) = closesCount a + closesCount b := by
  unfold closesCount
  simp [List.count_append]
  omega

/-- The footer emits the closing root tag exactly when the title flag is
set. -/
theorem footer_rfc_count (r : Renderer) :
    ((renderFooter r).2).count ("\n</rfc>") = (if r.title then 1 else 0) := by
  have hshape : (renderFooter r).2
      = (sectionClose r none).2 ++ footerMatterChunks r.documentMatter
          ++ (if r.title then ["\n</rfc>"] else []) := rfl
  rw [hshape]
  simp only [List.count_append]
  rw [sectionClose_count_zero r none _ (by decide) (by decide) (by decide) (by decide),
    footerMatter_count_zero r.documentMatter _ (by decide) (by decide) (by decide),
    titlePart_count r.title]
  omega

/-- C6: the footer closes a still-open section, then emits exactly the
closing tag of the currently open document-matter region (none when no
region was entered), and appends the closing root tag exactly when a title
block was emitted during the pass. -/
theorem claim_c6_footer (r : Renderer) :
    (renderFooter r).2
        = (sectionClose r none).2 ++ footerMatterChunks r.documentMatter
            ++ (if r.title then ["\n</rfc>"] else [])
      ∧ ((renderFooter r).2).count ("</section>") = (if sectionOpenRegular r then 1 else 0)
      ∧ closesCount ((renderFooter r).2) = (if r.sectionH.isSome then 1 else 0)
      ∧ ((renderFooter r).2).count ("\n</front>\n")
          = (if r.documentMatter = some Matter.front then 1 else 0)
      ∧ ((renderFooter r).2).count ("\n</middle>\n")
          = (if r.documentMatter = some Matter.main then 1 else 0)
      ∧ ((renderFooter r).2).count ("\n</back>\n")
          = (if r.documentMatter = some Matter.back then 1 else 0)
      ∧ ((renderFooter r).2).count ("\n</rfc>") = (if r.title then 1 else 0) := by
  have hshape : (renderFooter r).2
      = (sectionClose r none).2 ++ footerMatterChunks r.documentMatter
          ++ (if r.title then ["\n</rfc>"] else []) := rfl
  refine ⟨hshape, ?_, ?_, ?_, ?_, ?_, ?_⟩
  · rw [hshape]
    simp only [List.count_append]
    rw [sectionClose_count_section r none,
      footerMatter_count_zero r.documentMatter _ (by decide) (by decide) (by decide),
      titlePart_count_zero r.title _ (by decide)]
    omega
  · rw [hshape]
    rw [closesCount_append, closesCount_append]
    rw [sectionClose_closes r none]
    have hm0 : closesCount (footerMatterChunks r.documentMatter) = 0 := by
      unfold closesCount
      rw [footerMatter_count_zero r.documentMatter _ (by decide) (by decide) (by decide),
        footerMatter_count_zero r.documentMatter _ (by decide) (by decide) (by decide),
        footerMatter_count_zero r.documentMatter _ (by decide) (by decide) (by decide)]
    have ht0 : closesCount (if r.title then ["\n</rfc>"] else []) = 0 := by
      unfold closesCount
      rw [titlePart_count_zero r.title _ (by decide), titlePart_count_zero r.title _ (by decide),
        titlePart_count_zero r.title _ (by decide)]
    rw [hm0, ht0]
    omega
  · rw [hshape]
    simp only [List.count_append]
    rw [sectionClose_count_zero r none _ (by decide) (by decide) (by decide) (by decide),
      (footerMatter_count r.documentMatter).1,
      titlePart_count_zero r.title _ (by decide)]
    omega
  · rw [hshape]
    simp only [List.count_append]
    rw [sectionClose_count_zero r none _ (by decide) (by decide) (by decide) (by decide),
      (footerMatter_count r.documentMatter).2.1,
      titlePart_count_zero r.title _ (by decide)]
    omega
  · rw [hshape]
    simp only [List.count_append]
    rw [sectionClose_count_zero r none _ (by decide) (by decide) (by decide) (by decide),
      (footerMatter_count r.documentMatter).2.2,
      titlePart_count_zero r.title _ (by decide)]
    omega
  · exact footer_rfc_count r

/-- Fragment-mode flags. -/
def fragFlags : Flags := { fragment := true, skipHTML := false, skipImages := true }

/-- One dispatcher step on a title-block node in fragment mode. -/
def fragTitleStep : RNRes :=
  renderNode none 2 none Node.title true (initSt (initRenderer fragFlags))

/-- Counterexample to C7 as stated: with the fragment flag set, a render
pass that visits a title-block node still sets the title flag, and the
footer then emits the closing root tag — so fragment mode does not suppress
the closing root-element tag. -/
theorem claim_c7_counterexample :
    (initRenderer fragFlags).flags.fragment = true
      ∧ fragTitleStep.st.r.title = true
      ∧ fragTitleStep.st.r.flags.fragment = true
      ∧ renderHeader (initRenderer fragFlags) = []
      ∧ ("\n</rfc>") ∈ (renderFooter fragTitleStep.st.r).2 := by
  refine ⟨rfl, rfl, rfl, rfl, ?_⟩
  decide

/-- C7 amended: the fragment flag suppresses the XML declaration, the
generator comment and the DOCTYPE; the closing root tag is governed solely
by whether a title block was emitted, independent of the fragment flag; with
the flag unset the preamble is the declaration, the generator comment and
the DOCTYPE referencing rfc2629.dtd. -/
theorem claim_c7_fragment (r : Renderer) :
    (r.flags.fragment = true → renderHeader r = [])
      ∧ (r.flags.fragment = false →
          renderHeader r = [xmlDecl, "\n", generatorComment, "\n", doctype, "\n"])
      ∧ ((renderFooter r).2).count ("\n</rfc>") = (if r.title then 1 else 0) := by
  refine ⟨?_, ?_, footer_rfc_count r⟩
  · intro hf
    unfold renderHeader
    rw [if_pos hf]
  · intro hf
    unfold renderHeader writeDocumentHeader
    rw [if_neg (by simp [hf]), if_neg (by simp [hf])]

/-- Witness for the amended C7 in fragment mode with an emitted title
block. -/
theorem claim_c7_fragment_witness :
    fragTitleStep.st.r.flags.fragment = true
      ∧ renderHeader fragTitleStep.st.r = []
      ∧ ((renderFooter fragTitleStep.st.r).2).count ("\n</rfc>")
          = (if fragTitleStep.st.r.title then 1 else 0) :=
  ⟨rfl, (claim_c7_fragment fragTitleStep.st.r).1 rfl,
    (claim_c7_fragment fragTitleStep.st.r).2.2⟩

/-- C9: while image suppression is configured, the dispatcher returns
skip-children for an image node on both the entering and the exiting visit,
emits nothing, and leaves the renderer state untouched. -/
theorem claim_c9_skip_images (fuel : Nat) (p : Option Node) (dest : String)
    (mt : Option String) (cs : List Node) (e : Bool) (st : WalkSt)
    (hskip : st.r.flags.skipImages = true) :
    (renderNode none (fuel + 1) p (.image dest mt cs) e st).status = .skipChildren
      ∧ (renderNode none (fuel + 1) p (.image dest mt cs) e st).st.out = st.out
      ∧ (renderNode none (fuel + 1) p (.image dest mt cs) e st).st.r = st.r := by
  unfold renderNode
  simp [hskip]

/-- Witness for C9 on a concrete image node in both directions. -/
theorem claim_c9_skip_images_witness :
    (initSt (initRenderer flagsW)).r.flags.skipImages = true
      ∧ (renderNode none 1 none (.image ("a.png") none []) true
            (initSt (initRenderer flagsW))).status = .skipChildren
      ∧ (renderNode none 1 none (.image ("a.png") none []) true
            (initSt (initRenderer flagsW))).st.out = (initSt (initRenderer flagsW)).out
      ∧ (renderNode none 1 none (.image ("a.png") none []) false
            (initSt (initRenderer flagsW))).status = .skipChildren :=
  ⟨rfl,
    (claim_c9_skip_images 0 none ("a.png") none [] true (initSt (initRenderer flagsW)) rfl).1,
    (claim_c9_skip_images 0 none ("a.png") none [] true (initSt (initRenderer flagsW)) rfl).2.1,
    (claim_c9_skip_images 0 none ("a.png") none [] false (initSt (initRenderer flagsW)) rfl).1⟩

/-- The escaper's output never contains markup-significant characters. -/
theorem escapeChars_no_markup (l : List Char) (c : Char) (hc : c ∈ (escapeChars l).data) :
    c ≠ '<' ∧ c ≠ '>' ∧ c ≠ '"' := by
  induction l with
  | nil => exact absurd hc (List.not_mem_nil c)
  | cons d ds ih =>
    unfold escapeChars at hc
    rw [String.data_append, List.mem_append] at hc
    rcases hc with hc | hc
    · unfold escapeChar at hc
      by_cases h1 : d = '"'
      · rw [if_pos h1] at hc
        refine ⟨?_, ?_, ?_⟩ <;> (intro e; rw [e] at hc; revert hc; decide)
      · rw [if_neg h1] at hc
        by_cases h2 : d = '&'
        · rw [if_pos h2] at hc
          refine ⟨?_, ?_, ?_⟩ <;> (intro e; rw [e] at hc; revert hc; decide)
        · rw [if_neg h2] at hc
          by_cases h3 : d = '<'
          · rw [if_pos h3] at hc
            refine ⟨?_, ?_, ?_⟩ <;> (intro e; rw [e] at hc; revert hc; decide)
          · rw [if_neg h3] at hc
            by_cases h4 : d = '>'
            · rw [if_pos h4] at hc
              refine ⟨?_, ?_, ?_⟩ <;> (intro e; rw [e] at hc; revert hc; decide)
            · rw [if_neg h4] at hc
              simp [String.singleton] at hc
              subst hc
              exact ⟨h3, h4, h1⟩
    · exact ih hc

/-- String-level version of `escapeChars_no_markup`. -/
theorem escapeHTML_no_markup (s : String) (c : Char) (hc : c ∈ (escapeHTML s).data) :
    c ≠ '<' ∧ c ≠ '>' ∧ c ≠ '"' :=
  escapeChars_no_markup s.data c hc

/-- C10: the link handler opens an eref element carrying the HTML-escaped
destination but closes it with an iref closing tag rather than an eref one,
and it does so identically on the entering and the exiting visit; no chunk
of the emitted fragment closes the eref element. -/
theorem claim_c10_link (fuel : Nat) (p : Option Node) (dest : String) (cs : List Node)
    (e : Bool) (st : WalkSt) :
    (renderNode none (fuel + 1) p (.link dest cs) e st).status = .goToNext
      ∧ (renderNode none (fuel + 1) p (.link dest cs) e st).st.out
          = st.out ++ ["<eref", " target=\"", escapeHTML dest, "\"></iref>"]
      ∧ (["<eref", " target=\"", escapeHTML dest, "\"></iref>"] : List String).count
          ("\"></eref>") = 0
      ∧ (["<eref", " target=\"", escapeHTML dest, "\"></iref>"] : List String).count
          ("</eref>") = 0 := by
  refine ⟨?_, ?_, ?_, ?_⟩
  · unfold renderNode
    simp [link]
  · unfold renderNode
    simp [link, emitW]
  · rw [List.count_eq_zero]
    intro hm
    simp only [List.mem_cons, List.not_mem_nil, or_false] at hm
    rcases hm with hm | hm | hm | hm
    · revert hm; decide
    · revert hm; decide
    · have := escapeHTML_no_markup dest '"' (by rw [← hm]; decide)
      exact this.2.2 rfl
    · revert hm; decide
  · rw [List.count_eq_zero]
    intro hm
    simp only [List.mem_cons, List.not_mem_nil, or_false] at hm
    rcases hm with hm | hm | hm | hm
    · revert hm; decide
    · revert hm; decide
    · have := escapeHTML_no_markup dest '<' (by rw [← hm]; decide)
      exact this.1 rfl
    · revert hm; decide

/-- Is this node an `ast.Image`? -/
def Node.isImage : Node → Bool
  | .image _ _ _ => true
  | _ => false

/-- The parent context passed to the dispatcher is itself made of recognized
variants (vacuous for a root node). -/
def parentOK : Option Node → Prop
  | none => True
  | some pn => allRecognized pn = true

/-- Recognizedness of a list member. -/
theorem allRecognizedL_mem (cs : List Node) (h : allRecognizedL cs = true) (c : Node)
    (hc : c ∈ cs) : allRecognized c = true := by
  induction cs with
  | nil => exact absurd hc (List.not_mem_nil c)
  | cons d ds ih =>
    unfold allRecognizedL at h
    rw [Bool.and_eq_true] at h
    rcases List.mem_cons.mp hc with hc | hc
    · rw [hc]; exact h.1
    · exact ih h.2 hc

/-- Recognizedness survives filtering. -/
theorem allRecognizedL_filter (cs : List Node) (q : Node → Bool)
    (h : allRecognizedL cs = true) : allRecognizedL (cs.filter q) = true := by
  induction cs with
  | nil => rfl
  | cons d ds ih =>
    unfold allRecognizedL at h
    rw [Bool.and_eq_true] at h
    rw [List.filter_cons]
    by_cases hq : q d = true
    · rw [if_pos hq]
      unfold allRecognizedL
      rw [Bool.and_eq_true]
      exact ⟨h.1, ih h.2⟩
    · rw [if_neg hq]
      exact ih h.2

/-- A recognized node has recognized children. -/
theorem allRecognized_children (n : Node) (h : allRecognized n = true) :
    allRecognizedL n.children = true := by
  cases n <;> first
    | rfl
    | exact h
    | (simp [allRecognized] at h)

/-- The node a dispatcher call hands back to the walk driver stays
recognized (only the caption-figure handler rewrites it, by filtering its
children). -/
theorem renderNode_self_recognized (fuel : Nat) (p : Option Node) (n : Node) (e : Bool)
    (st : WalkSt) (h : allRecognized n = true) :
    allRecognized ((renderNode none fuel p n e st).self) = true := by
  cases fuel with
  | zero => exact h
  | succ fuel =>
    cases n with
    | captionFigure cs =>
      unfold renderNode
      by_cases htab : cs.any Node.isTable = true
      · simp only [htab, if_true]
        exact h
      · simp only [htab, Bool.false_eq_true, if_false]
        cases e with
        | true =>
          simp only [if_true]
          exact allRecognizedL_filter cs _ h
        | false =>
          simp only [Bool.false_eq_true, if_false]
          exact h
    | table cs =>
      unfold renderNode
      cases e with
      | false => exact h
      | true =>
        cases p with
        | none => exact h
        | some pn =>
          cases pn with
          | captionFigure pcs =>
            cases hf : pcs.find? Node.isCaption with
            | none => simp only [hf]; exact h
            | some cap => simp only [hf]; exact h
          | _ => exact h
    | document cs => exact h
    | title => exact h
    | text lit => exact h
    | heading info cs => exact h
    | docMatter m => cases e <;> exact h
    | paragraph cs => exact h
    | codeBlock lit => exact h
    | caption cs => exact h
    | link dest cs => exact h
    | image dest mt cs =>
      unfold renderNode
      by_cases hsk : st.r.flags.skipImages = true
      · simp only [hsk, if_true]; exact h
      · simp only [hsk, Bool.false_eq_true, if_false]; exact h
    | other tag cs => simp [allRecognized] at h

/-- Dispatching on trees of recognized variants never trips the fatal
branch: the panic marker is left exactly as it was, through the dispatcher,
the nested caption walks, the node walk and the child-list walk. -/
theorem noPanic (fuel : Nat) :
    (∀ (p : Option Node) (n : Node) (e : Bool) (st : WalkSt),
        allRecognized n = true → parentOK p →
        (renderNode none fuel p n e st).st.panicked = st.panicked)
      ∧ (∀ (parent : Node) (cs : List Node) (st : WalkSt),
          allRecognized parent = true → allRecognizedL cs = true →
          (walkCaptions none fuel parent cs st).panicked = st.panicked)
      ∧ (∀ (p : Option Node) (n : Node) (st : WalkSt),
          allRecognized n = true → parentOK p →
          (walkNode none fuel p n st).1.panicked = st.panicked)
      ∧ (∀ (p : Option Node) (ns : List Node) (st : WalkSt),
          allRecognizedL ns = true → parentOK p →
          (walkList none fuel p ns st).panicked = st.panicked) := by
  induction fuel with
  | zero =>
    refine ⟨?_, ?_, ?_, ?_⟩
    · intro p n e st _ _; rfl
    · intro parent cs st _ _
      cases cs with
      | nil => rfl
      | cons c cs => rfl
    · intro p n st _ _; rfl
    · intro p ns st _ _; rfl
  | succ fuel ih =>
    obtain ⟨ihR, ihC, ihN, ihL⟩ := ih
    refine ⟨?_, ?_, ?_, ?_⟩
    · -- renderNode
      intro p n e st hrec hpok
      cases n with
      | document cs => rfl
      | title => rfl
      | text lit => rfl
      | heading info cs => rfl
      | docMatter m => cases e <;> rfl
      | paragraph cs => rfl
      | codeBlock lit => rfl
      | caption cs => rfl
      | link dest cs => rfl
      | image dest mt cs =>
        unfold renderNode
        by_cases hsk : st.r.flags.skipImages = true
        · simp only [hsk, if_true]
        · simp only [hsk, Bool.false_eq_true, if_false]
          rfl
      | other tag cs => simp [allRecognized] at hrec
      | captionFigure cs =>
        unfold renderNode
        by_cases htab : cs.any Node.isTable = true
        · simp only [htab, if_true]
        · simp only [htab, Bool.false_eq_true, if_false]
          cases e with
          | true =>
            simp only [if_true]
            rw [ihC (Node.captionFigure cs) cs _ hrec hrec]
            rfl
          | false =>
            simp only [Bool.false_eq_true, if_false]
            rfl
      | table cs =>
        unfold renderNode
        cases e with
        | false => rfl
        | true =>
          cases p with
          | none => rfl
          | some pn =>
            cases pn with
            | captionFigure pcs =>
              cases hfind : pcs.find? Node.isCaption with
              | none =>
                simp only [Bool.not_true, Bool.false_eq_true, if_false, hfind]
                rfl
              | some cap =>
                simp only [Bool.not_true, Bool.false_eq_true, if_false, hfind]
                have hcap : allRecognized cap = true :=
                  allRecognizedL_mem pcs hpok cap (List.mem_of_find?_eq_some hfind)
                rw [ihN (some (Node.captionFigure pcs)) cap _ hcap hpok]
                rfl
            | document pcs => rfl
            | title => rfl
            | text plit => rfl
            | heading pinfo pcs => rfl
            | docMatter pm => rfl
            | paragraph pcs => rfl
            | codeBlock plit => rfl
            | caption pcs => rfl
            | table pcs => rfl
            | link pdest pcs => rfl
            | image pdest pmt pcs => rfl
            | other ptag pcs => rfl
    · -- walkCaptions
      intro parent cs st hparent hcs
      cases cs with
      | nil => rfl
      | cons c cs =>
        unfold walkCaptions
        unfold allRecognizedL at hcs
        rw [Bool.and_eq_true] at hcs
        rw [ihC parent cs _ hparent hcs.2]
        by_cases hc : c.isCaption = true
        · simp only [hc, if_true]
          exact ihN (some parent) c st hcs.1 hparent
        · simp only [hc, Bool.false_eq_true, if_false]
    · -- walkNode
      intro p n st hrec hpok
      unfold walkNode
      by_cases hg : (st.panicked || st.halted || st.fuelOut) = true
      · rw [if_pos hg]
      · rw [if_neg hg]
        have hres : (renderNode none fuel p n true st).st.panicked = st.panicked :=
          ihR p n true st hrec hpok
        have hself : allRecognized ((renderNode none fuel p n true st).self) = true :=
          renderNode_self_recognized fuel p n true st hrec
        by_cases h2 : ((renderNode none fuel p n true st).st.panicked
            || (renderNode none fuel p n true st).st.fuelOut) = true
        · rw [if_pos h2]; exact hres
        · rw [if_neg h2]
          cases hstat : (renderNode none fuel p n true st).status with
          | terminate => simp only [hstat]; exact hres
          | skipChildren =>
            simp only [hstat]
            by_cases hct : ((renderNode none fuel p n true st).self).isContainer = true
            · rw [if_pos hct]
              have hex : (renderNode none fuel p ((renderNode none fuel p n true st).self)
                  false (renderNode none fuel p n true st).st).st.panicked
                  = (renderNode none fuel p n true st).st.panicked :=
                ihR p _ false _ hself hpok
              by_cases hterm : (renderNode none fuel p ((renderNode none fuel p n true st).self)
                  false (renderNode none fuel p n true st).st).status = .terminate
              · rw [if_pos hterm]; exact hex.trans hres
              · rw [if_neg hterm]; exact hex.trans hres
            · rw [if_neg hct]; exact hres
          | goToNext =>
            simp only [hstat]
            have hchild : allRecognizedL ((renderNode none fuel p n true st).self).children
                = true := allRecognized_children _ hself
            have hwl : (walkList none fuel (some ((renderNode none fuel p n true st).self))
                ((renderNode none fuel p n true st).self).children
                (renderNode none fuel p n true st).st).panicked
                = (renderNode none fuel p n true st).st.panicked :=
              ihL (some _) _ _ hchild hself
            by_cases h3 : ((walkList none fuel (some ((renderNode none fuel p n true st).self))
                ((renderNode none fuel p n true st).self).children
                (renderNode none fuel p n true st).st).panicked
                || (walkList none fuel (some ((renderNode none fuel p n true st).self))
                  ((renderNode none fuel p n true st).self).children
                  (renderNode none fuel p n true st).st).halted
                || (walkList none fuel (some ((renderNode none fuel p n true st).self))
                  ((renderNode none fuel p n true st).self).children
                  (renderNode none fuel p n true st).st).fuelOut) = true
            · rw [if_pos h3]; exact hwl.trans hres
            · rw [if_neg h3]
              by_cases hct : ((renderNode none fuel p n true st).self).isContainer = true
              · rw [if_pos hct]
                have hex : (renderNode none fuel p ((renderNode none fuel p n true st).self)
                    false (walkList none fuel (some ((renderNode none fuel p n true st).self))
                      ((renderNode none fuel p n true st).self).children
                      (renderNode none fuel p n true st).st)).st.panicked
                    = (walkList none fuel (some ((renderNode none fuel p n true st).self))
                      ((renderNode none fuel p n true st).self).children
                      (renderNode none fuel p n true st).st).panicked :=
                  ihR p _ false _ hself hpok
                by_cases hterm : (renderNode none fuel p
                    ((renderNode none fuel p n true st).self) false
                    (walkList none fuel (some ((renderNode none fuel p n true st).self))
                      ((renderNode none fuel p n true st).self).children
                      (renderNode none fuel p n true st).st)).status = .terminate
                · rw [if_pos hterm]; exact hex.trans (hwl.trans hres)
                · rw [if_neg hterm]; exact hex.trans (hwl.trans hres)
              · rw [if_neg hct]; exact hwl.trans hres
    · -- walkList
      intro p ns st hns hpok
      cases ns with
      | nil => rfl
      | cons c cs =>
        unfold walkList
        unfold allRecognizedL at hns
        rw [Bool.and_eq_true] at hns
        by_cases hg : (st.panicked || st.halted || st.fuelOut) = true
        · rw [if_pos hg]
        · rw [if_neg hg]
          rw [ihL p _ _ (allRecognizedL_filter cs _ hns.2) hpok]
          exact ihN p c st hns.1 hpok

/-- C8: with no hook in play, a node of unrecognized variant makes the
dispatcher trip its fatal branch (the Go panic, marked by the panic flag)
rather than silently producing no output; over a tree of recognized
variants the dispatch never panics; and every recognized variant returns
continue, except an image under configured image suppression, which returns
skip-children. -/
theorem claim_c8_dispatch (fuel : Nat) (p : Option Node) (n : Node) (e : Bool)
    (st : WalkSt) :
    (n.recognized = false → (renderNode none (fuel + 1) p n e st).st.panicked = true)
      ∧ (allRecognized n = true → parentOK p →
          (renderNode none fuel p n e st).st.panicked = st.panicked)
      ∧ (n.recognized = true →
          (renderNode none (fuel + 1) p n e st).status
            = (if n.isImage && st.r.flags.skipImages then .skipChildren else .goToNext)) := by
  refine ⟨?_, fun h1 h2 => (noPanic fuel).1 p n e st h1 h2, ?_⟩
  · intro hunrec
    cases n with
    | other tag cs => rfl
    | document cs => simp [Node.recognized] at hunrec
    | title => simp [Node.recognized] at hunrec
    | text lit => simp [Node.recognized] at hunrec
    | heading info cs => simp [Node.recognized] at hunrec
    | docMatter m => simp [Node.recognized] at hunrec
    | paragraph cs => simp [Node.recognized] at hunrec
    | codeBlock lit => simp [Node.recognized] at hunrec
    | caption cs => simp [Node.recognized] at hunrec
    | captionFigure cs => simp [Node.recognized] at hunrec
    | table cs => simp [Node.recognized] at hunrec
    | link dest cs => simp [Node.recognized] at hunrec
    | image dest mt cs => simp [Node.recognized] at hunrec
  · intro hrec
    cases n with
    | other tag cs => simp [Node.recognized] at hrec
    | document cs => rfl
    | title => rfl
    | text lit => rfl
    | heading info cs => rfl
    | docMatter m => cases e <;> rfl
    | paragraph cs => rfl
    | codeBlock lit => rfl
    | caption cs => rfl
    | link dest cs => rfl
    | image dest mt cs =>
      unfold renderNode
      by_cases hsk : st.r.flags.skipImages = true
      · simp only [hsk, if_true, Node.isImage, Bool.and_true, Bool.and_self]
      · simp only [hsk, Bool.false_eq_true, if_false, Node.isImage, Bool.and_false]
    | captionFigure cs =>
      unfold renderNode
      by_cases htab : cs.any Node.isTable = true
      · simp only [htab, if_true]
        cases hsk : (Node.captionFigure cs).isImage && st.r.flags.skipImages with
        | false => rfl
        | true => simp [Node.isImage] at hsk
      · simp only [htab, Bool.false_eq_true, if_false]
        cases e with
        | true =>
          simp only [if_true]
          cases hsk : (Node.captionFigure cs).isImage && st.r.flags.skipImages with
          | false => rfl
          | true => simp [Node.isImage] at hsk
        | false =>
          simp only [Bool.false_eq_true, if_false]
          rfl
    | table cs =>
      unfold renderNode
      cases e with
      | false => rfl
      | true =>
        cases p with
        | none => rfl
        | some pn =>
          cases pn with
          | captionFigure pcs =>
            cases hfind : pcs.find? Node.isCaption with
            | none =>
              simp only [Bool.not_true, Bool.false_eq_true, if_false, hfind]
              rfl
            | some cap =>
              simp only [Bool.not_true, Bool.false_eq_true, if_false, hfind]
              rfl
          | document pcs => rfl
          | title => rfl
          | text plit => rfl
          | heading pinfo pcs => rfl
          | docMatter pm => rfl
          | paragraph pcs => rfl
          | codeBlock plit => rfl
          | caption pcs => rfl
          | table pcs => rfl
          | link pdest pcs => rfl
          | image pdest pmt pcs => rfl
          | other ptag pcs => rfl

/-- Witness for C8: an unknown variant panics; a recognized leaf does not
and returns continue. -/
theorem claim_c8_dispatch_witness :
    (Node.other ("mystery") []).recognized = false
      ∧ (renderNode none 1 none (Node.other ("mystery") []) true
          (initSt (initRenderer flagsW))).st.panicked = true
      ∧ allRecognized (Node.text ("hello")) = true
      ∧ (renderNode none 1 none (Node.text ("hello")) true
          (initSt (initRenderer flagsW))).st.panicked = (initSt (initRenderer flagsW)).panicked
      ∧ (Node.text ("hello")).recognized = true
      ∧ (renderNode none 1 none (Node.text ("hello")) true
          (initSt (initRenderer flagsW))).status = .goToNext := by
  refine ⟨by decide,
    (claim_c8_dispatch 0 none (Node.other ("mystery") []) true
      (initSt (initRenderer flagsW))).1 (by decide),
    by decide,
    (claim_c8_dispatch 1 none (Node.text ("hello")) true
      (initSt (initRenderer flagsW))).2.1 (by decide) trivial,
    by decide, ?_⟩
  have h := (claim_c8_dispatch 0 none (Node.text ("hello")) true
    (initSt (initRenderer flagsW))).2.2 (by decide)
  rw [h]
  decide

/-- A table node holding one text cell. -/
def tblNode (t : String) : Node := .table [.text t]

/-- A caption node holding one text run. -/
def capNode (s : String) : Node := .caption [.text s]

/-- A caption figure holding a table and its caption (the parser's shape for
a captioned table). -/
def cf4Node (s t : String) : Node := .captionFigure [tblNode t, capNode s]

/-- A caption figure holding a code block and its caption (the parser's
shape for a captioned artwork figure). -/
def cf5Node (s c : String) : Node := .captionFigure [.codeBlock c, capNode s]

/-- Walk state just after entering the captioned-table figure. -/
def st4a (r : Renderer) (s t : String) : WalkSt :=
  { r := r, out := [], trace := [(cf4Node s t, true)],
    panicked := false, halted := false, fuelOut := false }

/-- Walk state after the table child (and the caption rendered into its
title attribute) has been fully walked. -/
def st4b (r : Renderer) (s t : String) : WalkSt :=
  { r := r,
    out := ["<texttable", "", " title=\"", escapeHTML s, "\">", escapeHTML t, "</texttable>"],
    trace := [(cf4Node s t, true), (tblNode t, true), (capNode s, true), (.text s, true),
      (capNode s, false), (.text t, true), (tblNode t, false)],
    panicked := false, halted := false, fuelOut := false }

/-- Walk state after the whole captioned-table figure has been walked. -/
def st4c (r : Renderer) (s t : String) : WalkSt :=
  { r := r,
    out := ["<texttable", "", " title=\"", escapeHTML s, "\">", escapeHTML t, "</texttable>"],
    trace := [(cf4Node s t, true), (tblNode t, true), (capNode s, true), (.text s, true),
      (capNode s, false), (.text t, true), (tblNode t, false), (cf4Node s t, false)],
    panicked := false, halted := false, fuelOut := false }

set_option maxHeartbeats 4000000 in
/-- Walking the table child of a captioned figure: the texttable opens, the
caption subtree is rendered once into the title attribute and reported as
excised, the cell renders, the texttable closes. -/
theorem walk_tbl (r : Renderer) (s t : String) (f : Nat) :
    walkNode none (f + 13) (some (cf4Node s t)) (tblNode t) (st4a r s t)
      = (st4b r s t, [capNode s]) := by
  rfl

/-- The excised caption is dropped from the remaining sibling list. -/
theorem filter_cap (s : String) :
    (([capNode s]).filter (fun x => !(([capNode s]).any (fun y => nodeEq y x)))) = [] := by
  simp [capNode, nodeEq, nodeEqL]

set_option maxHeartbeats 4000000 in
/-- Walking the child list of the captioned-table figure: the table is
walked, and the excised caption is not visited again. -/
theorem walk_cf4_children (r : Renderer) (s t : String) (f : Nat) :
    walkList none (f + 14) (some (cf4Node s t)) [tblNode t, capNode s] (st4a r s t)
      = st4b r s t := by
  have h1 : (walkNode none (f + 13) (some (cf4Node s t)) (tblNode t) (st4a r s t)).1
      = st4b r s t := by rw [walk_tbl]
  have h2 : (walkNode none (f + 13) (some (cf4Node s t)) (tblNode t) (st4a r s t)).2
      = [capNode s] := by rw [walk_tbl]
  calc walkList none (f + 14) (some (cf4Node s t)) [tblNode t, capNode s] (st4a r s t)
      = walkList none (f + 13) (some (cf4Node s t))
          (([capNode s]).filter (fun x =>
            !(((walkNode none (f + 13) (some (cf4Node s t)) (tblNode t) (st4a r s t)).2).any
              (fun y => nodeEq y x))))
          ((walkNode none (f + 13) (some (cf4Node s t)) (tblNode t) (st4a r s t)).1) := rfl
    _ = st4b r s t := by
        rw [h2, filter_cap s, h1]
        rfl

set_option maxHeartbeats 4000000 in
/-- Walking a captioned-table figure end to end: the figure wrapper is
suppressed, the table renders with the caption in its title attribute, and
the excised caption is never revisited. -/
theorem walk_cf4 (r : Renderer) (s t : String) (f : Nat) :
    walkNode none (f + 15) none (cf4Node s t) (initSt r) = (st4c r s t, []) := by
  have henter : renderNode none (f + 14) none (cf4Node s t) true (initSt r)
      = ⟨.goToNext, cf4Node s t, [], st4a r s t⟩ := rfl
  have hexit : renderNode none (f + 14) none (cf4Node s t) false (st4b r s t)
      = ⟨.goToNext, cf4Node s t, [], st4c r s t⟩ := rfl
  have hch : (cf4Node s t).children = [tblNode t, capNode s] := rfl
  have hcont : (cf4Node s t).isContainer = true := rfl
  have hi1 : (initSt r).panicked = false := rfl
  have hi2 : (initSt r).halted = false := rfl
  have hi3 : (initSt r).fuelOut = false := rfl
  have ha1 : (st4a r s t).panicked = false := rfl
  have ha3 : (st4a r s t).fuelOut = false := rfl
  have hb1 : (st4b r s t).panicked = false := rfl
  have hb2 : (st4b r s t).halted = false := rfl
  have hb3 : (st4b r s t).fuelOut = false := rfl
  have hne : (WalkStatus.goToNext = WalkStatus.terminate) ↔ False := by
    constructor
    · intro h; exact WalkStatus.noConfusion h
    · intro h; exact h.elim
  simp only [walkNode, henter, hch, hcont, hi1, hi2, hi3, ha1, ha3, hb1, hb2, hb3,
    Bool.or_false, Bool.or_self, Bool.false_eq_true, if_false, if_true,
    walk_cf4_children, hexit, hne]

/-- Walk state after the whole captioned code-block figure has been
walked. -/
def st5c (r : Renderer) (s c : String) : WalkSt :=
  { r := r,
    out := ["<figure", " title=\"", escapeHTML s, "\">", "\n", "<artwork>", escapeHTML c,
      "</artwork>", "\n", "</figure>"],
    trace := [(cf5Node s c, true), (capNode s, true), (.text s, true), (capNode s, false),
      (.codeBlock c, true), (.captionFigure [.codeBlock c], false)],
    panicked := false, halted := false, fuelOut := false }

set_option maxHeartbeats 4000000 in
/-- Walking a captioned code-block figure end to end: the caption renders
once, into the figure's title attribute, is excised from the figure's
children, and is never revisited. -/
theorem walk_cf5 (r : Renderer) (s c : String) (f : Nat) :
    walkNode none (f + 13) none (cf5Node s c) (initSt r) = (st5c r s c, []) := by
  rfl

/-- C4: a caption figure whose children include a table emits no figure
wrapper at all (entering or exiting, whatever the other children), and such
a figure renders as a texttable whose title attribute carries the escaped
caption content exactly once, followed by the table content. -/
theorem claim_c4_table_in_figure (r : Renderer) (s t : String) (f : Nat) :
    (∀ (cs : List Node) (e : Bool) (st : WalkSt) (fuel : Nat) (p : Option Node),
        cs.any Node.isTable = true →
        (renderNode none (fuel + 1) p (.captionFigure cs) e st).st.out = st.out
          ∧ (renderNode none (fuel + 1) p (.captionFigure cs) e st).self = .captionFigure cs
          ∧ (renderNode none (fuel + 1) p (.captionFigure cs) e st).removed = [])
      ∧ (walkNode none (f + 15) none (cf4Node s t) (initSt r)).1.out
          = ["<texttable", "", " title=\"", escapeHTML s, "\">", escapeHTML t,
              "</texttable>"] := by
  constructor
  · intro cs e st fuel p htab
    unfold renderNode
    simp only [htab, if_true]
    exact ⟨trivial, trivial, trivial⟩
  · rw [walk_cf4]
    rfl

/-- Witness for C4 at a concrete captioned table. -/
theorem claim_c4_table_in_figure_witness :
    ([Node.table [], Node.caption []].any Node.isTable = true)
      ∧ (renderNode none 1 none (.captionFigure [Node.table [], Node.caption []]) true
            (initSt (initRenderer flagsW))).st.out = (initSt (initRenderer flagsW)).out
      ∧ (walkNode none 15 none (cf4Node ("A caption") ("cell")) (initSt (initRenderer flagsW))).1.out
          = ["<texttable", "", " title=\"", escapeHTML ("A caption"), "\">",
              escapeHTML ("cell"), "</texttable>"] :=
  ⟨by decide,
    ((claim_c4_table_in_figure (initRenderer flagsW) ("A caption") ("cell") 0).1
      [Node.table [], Node.caption []] true (initSt (initRenderer flagsW)) 0 none
      (by decide)).1,
    (claim_c4_table_in_figure (initRenderer flagsW) ("A caption") ("cell") 0).2⟩

/-- C5: a caption subtree rendered into a title attribute is excised from
the tree at that moment — the figure handler rewrites its own child list,
the table handler reports the caption it consumed as removed — and the
dispatcher visits the caption subtree exactly once in the whole walk, for
both the figure path and the table path. -/
theorem claim_c5_caption_excision (r : Renderer) (s t c : String) (f : Nat) :
    (∀ (cs : List Node) (st : WalkSt) (fuel : Nat) (p : Option Node),
        cs.any Node.isTable = false →
        (renderNode none (fuel + 1) p (.captionFigure cs) true st).self
          = .captionFigure (cs.filter (fun x => !x.isCaption)))
      ∧ (∀ (pcs cs : List Node) (st : WalkSt) (fuel : Nat),
          (renderNode none (fuel + 1) (some (.captionFigure pcs)) (.table cs) true st).removed
            = (pcs.find? Node.isCaption).toList)
      ∧ (walkNode none (f + 15) none (cf4Node s t) (initSt r)).1.trace
          = [(cf4Node s t, true), (tblNode t, true), (capNode s, true), (.text s, true),
              (capNode s, false), (.text t, true), (tblNode t, false), (cf4Node s t, false)]
      ∧ ((walkNode none (f + 15) none (cf4Node s t) (initSt r)).1.trace.countP
          (fun q => q.1.isCaption && q.2)) = 1
      ∧ (walkNode none (f + 13) none (cf5Node s c) (initSt r)).1.trace
          = [(cf5Node s c, true), (capNode s, true), (.text s, true), (capNode s, false),
              (.codeBlock c, true), (.captionFigure [.codeBlock c], false)]
      ∧ ((walkNode none (f + 13) none (cf5Node s c) (initSt r)).1.trace.countP
          (fun q => q.1.isCaption && q.2)) = 1 := by
  refine ⟨?_, ?_, ?_, ?_, ?_, ?_⟩
  · intro cs st fuel p htab
    unfold renderNode
    simp only [htab, Bool.false_eq_true, if_false, if_true]
  · intro pcs cs st fuel
    unfold renderNode
    cases hfind : pcs.find? Node.isCaption with
    | none => simp only [Bool.not_true, Bool.false_eq_true, if_false, hfind, Option.toList]
    | some cap => simp only [Bool.not_true, Bool.false_eq_true, if_false, hfind, Option.toList]
  · rw [walk_cf4]
    rfl
  · rw [walk_cf4]
    rfl
  · rw [walk_cf5]
    rfl
  · rw [walk_cf5]
    rfl

/-- Witness for C5 at concrete figures. -/
theorem claim_c5_caption_excision_witness :
    ([Node.codeBlock ("x"), Node.caption []].any Node.isTable = false)
      ∧ (renderNode none 1 none
            (.captionFigure [Node.codeBlock ("x"), Node.caption []]) true
            (initSt (initRenderer flagsW))).self
          = .captionFigure ([Node.codeBlock ("x"), Node.caption []].filter
              (fun x => !x.isCaption))
      ∧ ((walkNode none 15 none (cf4Node ("A caption") ("cell"))
            (initSt (initRenderer flagsW))).1.trace.countP
          (fun q => q.1.isCaption && q.2)) = 1
      ∧ ((walkNode none 13 none (cf5Node ("A caption") ("code"))
            (initSt (initRenderer flagsW))).1.trace.countP
          (fun q => q.1.isCaption && q.2)) = 1 :=
  ⟨by decide,
    (claim_c5_caption_excision (initRenderer flagsW) ("A caption") ("cell") ("code") 0).1
      [Node.codeBlock ("x"), Node.caption []] (initSt (initRenderer flagsW)) 0 none
      (by decide),
    (claim_c5_caption_excision (initRenderer flagsW) ("A caption") ("cell") ("code") 0).2.2.2.1,
    (claim_c5_caption_excision (initRenderer flagsW) ("A caption") ("cell") ("code") 0).2.2.2.2.2⟩

end Mmark
